import Mathlib

/-!
Verification of the PyRKViewer selection-aware property-synchronization and
geometric-transform engine.

The development shallowly embeds the relevant parts of
`src/rkviewer/forms.py` and `src/plugins/arrow_designer.py`.  Coordinates and
sizes are embedded as rationals (`ℚ`); Python exceptions raised by otherwise
pure code (division by zero, `min` of an empty sequence) are embedded as an
explicit `crash` outcome.  Helpers that live in modules of the repository not
present under `src/` (`rkviewer.canvas.geometry`, `rkviewer.utils`) are
modelled from the specification and each carries a doc comment saying so.
-/

namespace RKViewer

/-- Planar vector with rational components, embedding `Vec2` from
`rkviewer.canvas.geometry` (component-wise arithmetic). -/
structure Vec2 where
  x : ℚ
  y : ℚ
  deriving DecidableEq, Repr

instance : Add Vec2 := ⟨fun a b => ⟨a.x + b.x, a.y + b.y⟩⟩

instance : Sub Vec2 := ⟨fun a b => ⟨a.x - b.x, a.y - b.y⟩⟩

/-- Element-wise product, embedding `Vec2.elem_mul`. -/
def Vec2.elem_mul (a b : Vec2) : Vec2 := ⟨a.x * b.x, a.y * b.y⟩

/-- Element-wise quotient, embedding `Vec2.elem_div`. -/
def Vec2.elem_div (a b : Vec2) : Vec2 := ⟨a.x / b.x, a.y / b.y⟩

/-- Axis-aligned rectangle (top-left position and extent), embedding `Rect`
from `rkviewer.canvas.geometry`. -/
structure Rect where
  position : Vec2
  size : Vec2
  deriving DecidableEq, Repr

/-- Modelled from the spec: `clamp_rect_pos` (defined in
`rkviewer.canvas.geometry`, a module not present under `src/`).  §4.2: "the
rectangle is translated (not resized) minimally so it lies fully within
`canvas_bounds`"; it returns the translated rectangle's position. -/
def clamp_rect_pos (r : Rect) (bounds : Rect) : Vec2 :=
  ⟨max bounds.position.x (min r.position.x (bounds.position.x + bounds.size.x - r.size.x)),
   max bounds.position.y (min r.position.y (bounds.position.y + bounds.size.y - r.size.y))⟩

/-- Modelled from the spec: `clamp_rect_size` (defined in
`rkviewer.canvas.geometry`, a module not present under `src/`).  §4.2: it
"may shrink the size so the rectangle fits starting from the fixed position"
within the canvas, whose bounds have origin zero and extent `realsize`;
it returns the clamped size. -/
def clamp_rect_size (r : Rect) (realsize : Vec2) : Vec2 :=
  ⟨min r.size.x (realsize.x - r.position.x), min r.size.y (realsize.y - r.position.y)⟩

/-- Color with separate RGB word and alpha, embedding `wx.Colour` as consumed
by `forms.py` (`GetRGB`/`Alpha`; `GetRGBA` is the pair of both). -/
structure Color where
  rgb : ℕ
  alpha : ℕ
  deriving DecidableEq, Repr

/-- Embedding of `wx.BLACK`: zero RGB, fully opaque. -/
def wxBlack : Color := ⟨0, 255⟩

/-- The node fields consumed by the form handlers (`rkviewer.canvas.canvas.Node`). -/
structure Node where
  index : ℕ
  position : Vec2
  size : Vec2
  fill_color : Color
  deriving DecidableEq, Repr

/-- A mutation call issued to the `IController` interface. -/
inductive Mutation where
  | startGroup : Mutation
  | endGroup : Mutation
  | moveNode (idx : ℕ) (pos : Vec2) : Mutation
  | setNodeSize (idx : ℕ) (size : Vec2) : Mutation
  | setNodeFillRgb (idx : ℕ) (rgb : ℕ) : Mutation
  | setNodeFillAlpha (idx : ℕ) (alpha : ℕ) : Mutation
  | setNodeBorderWidth (idx : ℕ) (width : ℚ) : Mutation
  deriving DecidableEq, Repr

/-- The observable effect of one handler invocation: the controller calls it
issued, in order, and whether it set the form's `_self_changes` flag. -/
structure Effects where
  muts : List Mutation
  selfChanges : Bool
  deriving DecidableEq, Repr

/-- Outcome of a text handler: a validation error (no controller call), a
normal completion with its effects, or an unhandled Python exception. -/
inductive HandlerResult where
  | invalid : HandlerResult
  | done (eff : Effects) : HandlerResult
  | crash : HandlerResult
  deriving DecidableEq, Repr

/-- Python `min` over a non-empty sequence of floats (the `min(...)` generator
calls in `NodeForm._OnSizeText`); the `[]` case is never consulted because the
handler crashes first, exactly as Python `min` raises `ValueError`. -/
def listMin : List ℚ → ℚ
  | [] => 0
  | [a] => a
  | a :: rest => min a (listMin rest)

/-- The offset applied to every selected node by the multi-node branch of
`NodeForm._OnPosText` (forms.py line 577): the clamped bounding position minus
the old bounding position. -/
def posOffset (brect : Rect) (realsize : Vec2) (pos : Vec2) : Vec2 :=
  clamp_rect_pos ⟨pos, brect.size⟩ ⟨⟨0, 0⟩, realsize⟩ - brect.position

/-- Embedding of `NodeForm._OnPosText` (forms.py lines 548-586).  `xy` is the
result of `parse_num_pair` on the control's text; `nodes` is
`get_nodes_by_idx(self._nodes, self._selected_idx)`; `brect` is
`self._bounding_rect`; `realsize` is `self.canvas.realsize`.  Returns the
handler outcome together with the (locally mutated) node list. -/
def onPosText (nodes : List Node) (brect : Rect) (realsize : Vec2)
    (xy : Option (ℚ × ℚ)) : HandlerResult × List Node :=
  match xy with
  | none => (.invalid, nodes)
  | some (px, py) =>
    if px < 0 ∨ py < 0 then (.invalid, nodes)
    else
      let pos : Vec2 := ⟨px, py⟩
      let bounds : Rect := ⟨⟨0, 0⟩, realsize⟩
      match nodes with
      | [node] =>
        let clamped := clamp_rect_pos ⟨pos, node.size⟩ bounds
        if node.position ≠ clamped ∨ pos ≠ clamped then
          (.done ⟨[.startGroup, .moveNode node.index clamped, .endGroup], true⟩,
           [{ node with position := clamped }])
        else (.done ⟨[], false⟩, nodes)
      | _ =>
        let clamped := clamp_rect_pos ⟨pos, brect.size⟩ bounds
        if brect.position ≠ pos ∨ pos ≠ clamped then
          let offset := clamped - brect.position
          (.done ⟨[Mutation.startGroup] ++
              (nodes.map fun n => Mutation.moveNode n.index (n.position + offset)) ++
              [Mutation.endGroup], true⟩,
           nodes.map fun n => { n with position := n.position + offset })
        else (.done ⟨[], false⟩, nodes)

/-- The element-wise resize ratio of the multi-node branch of
`NodeForm._OnSizeText` (forms.py line 629): clamped bounding size divided by
the old bounding size. -/
def sizeRatio (brect : Rect) (realsize : Vec2) (size : Vec2) : Vec2 :=
  (clamp_rect_size ⟨brect.position, size⟩ realsize).elem_div brect.size

/-- New position of a node under the proportional multi-node resize
(forms.py lines 633-634). -/
def multiNewPos (brect : Rect) (ratio : Vec2) (n : Node) : Vec2 :=
  brect.position + (n.position - brect.position).elem_mul ratio

/-- New size of a node under the proportional multi-node resize
(forms.py line 637). -/
def multiNewSize (ratio : Vec2) (n : Node) : Vec2 :=
  n.size.elem_mul ratio

/-- The grouped transaction issued by the multi-node branch of
`NodeForm._OnSizeText` (forms.py lines 631-638): one `move_node` followed by
one `set_node_size` per node, inside a single `start_group`/`end_group`. -/
def multiSizeTxn (nodes : List Node) (brect : Rect) (ratio : Vec2) : List Mutation :=
  [Mutation.startGroup] ++
    (nodes.flatMap fun n =>
      [Mutation.moveNode n.index (multiNewPos brect ratio n),
       Mutation.setNodeSize n.index (multiNewSize ratio n)]) ++
    [Mutation.endGroup]

/-- The minimum proposed bounding size accepted by the multi-node branch of
`NodeForm._OnSizeText` (forms.py lines 615-618):
`BoundingRect.size` element-wise scaled by
`(min_width / min(widths), min_height / min(heights))`. -/
def sizeLimit (nodes : List Node) (brect : Rect) (minW minH : ℚ) : Vec2 :=
  brect.size.elem_mul
    ⟨minW / listMin (nodes.map fun n => n.size.x),
     minH / listMin (nodes.map fun n => n.size.y)⟩

/-- Embedding of `NodeForm._OnSizeText` (forms.py lines 588-639).  `wh` is the
result of `parse_num_pair` on the control's text.  In Python, `min()` of an
empty sequence raises `ValueError` and float division by `0.0` raises
`ZeroDivisionError`; both unhandled exceptions are embedded as `.crash`. -/
def onSizeText (nodes : List Node) (brect : Rect) (realsize : Vec2)
    (minW minH : ℚ) (wh : Option (ℚ × ℚ)) : HandlerResult :=
  match wh with
  | none => .invalid
  | some (w, h) =>
    match nodes with
    | [node] =>
      if w < minW ∨ h < minH then .invalid
      else
        let clamped := clamp_rect_size ⟨node.position, ⟨w, h⟩⟩ realsize
        if node.size ≠ clamped ∨ (⟨w, h⟩ : Vec2) ≠ clamped then
          .done ⟨[.setNodeSize node.index clamped], true⟩
        else .done ⟨[], false⟩
    | [] => .crash
    | _ =>
      let min_nw := listMin (nodes.map fun n => n.size.x)
      let min_nh := listMin (nodes.map fun n => n.size.y)
      if min_nw = 0 ∨ min_nh = 0 then .crash
      else
        let limit := sizeLimit nodes brect minW minH
        if w < limit.x ∨ h < limit.y then .invalid
        else
          let clamped := clamp_rect_size ⟨brect.position, ⟨w, h⟩⟩ realsize
          if brect.size ≠ clamped ∨ (⟨w, h⟩ : Vec2) ≠ clamped then
            .done ⟨multiSizeTxn nodes brect (clamped.elem_div brect.size), true⟩
          else .done ⟨[], false⟩

/-- Embedding of `NodeForm._OnFillColorChanged` (forms.py lines 641-654):
unconditionally sets `_self_changes`, opens a group, issues one
`set_node_fill_rgb` per node (plus `set_node_fill_alpha` off Windows), and
closes the group. -/
def onFillColorChanged (nodes : List Node) (msw : Bool) (fill : Color) : Effects :=
  ⟨[Mutation.startGroup] ++
      (nodes.flatMap fun n =>
        if msw then [Mutation.setNodeFillRgb n.index fill.rgb]
        else [Mutation.setNodeFillRgb n.index fill.rgb,
              Mutation.setNodeFillAlpha n.index fill.alpha]) ++
      [Mutation.endGroup], true⟩

/-- Python `int()` on a float: truncation toward zero. -/
def pyInt (q : ℚ) : ℤ := if 0 ≤ q then ⌊q⌋ else ⌈q⌉

/-- Embedding of `NodeForm._FillAlphaCallback` (forms.py lines 672-679). -/
def fillAlphaCallback (nodes : List Node) (alpha : ℚ) : Effects :=
  ⟨[Mutation.startGroup] ++
      (nodes.map fun n => Mutation.setNodeFillAlpha n.index (pyInt (alpha * 255)).toNat) ++
      [Mutation.endGroup], true⟩

/-- Embedding of `NodeForm._BorderWidthCallback` (forms.py lines 690-697). -/
def borderWidthCallback (nodes : List Node) (width : ℚ) : Effects :=
  ⟨[Mutation.startGroup] ++
      (nodes.map fun n => Mutation.setNodeBorderWidth n.index width) ++
      [Mutation.endGroup], true⟩

/-- Python float `%` for a positive modulus (`point.x % self.csize` in
`DesignerWindow.projected_landing`): `a - c * floor (a / c)`. -/
def pymod (a c : ℚ) : ℚ := a - c * ⌊a / c⌋

/-- One coordinate axis of `DesignerWindow.projected_landing`
(arrow_designer.py lines 87-103): `l = p - p % c`; land on `l` if
`p - l < c / 2`, else on `l + c`. -/
def projected_landing_coord (p c : ℚ) : ℚ :=
  let l := p - pymod p c
  if p - l < c / 2 then l else l + c

/-- Embedding of `DesignerWindow.projected_landing`, applied to both axes independently. -/
def projected_landing (p : ℚ × ℚ) (c : ℚ) : ℚ × ℚ :=
  (projected_landing_coord p.1 c, projected_landing_coord p.2 c)

/-- The value committed to the control point by `DesignerWindow.OnLeftUp`
(arrow_designer.py line 79): `Vec2(drop.x // self.csize, drop.y // self.csize)`,
Python float floor division of the snapped landing position by the cell size. -/
def committed_cell (p : ℚ × ℚ) (c : ℚ) : ℚ × ℚ :=
  ((⌊(projected_landing p c).1 / c⌋ : ℚ), (⌊(projected_landing p c).2 / c⌋ : ℚ))

/-- Embedding of `EditPanelForm._GetMultiColor` (forms.py lines 338-369).
`colors` is the list of per-node colors; the Python `set(...)` of raw channel
values is embedded as `List.dedup`.  On Windows (`msw = true`) the RGB word
and the alpha are aggregated independently; otherwise the combined RGBA value
is aggregated as one. -/
def getMultiColor (colors : List Color) (msw : Bool) : Color × Option ℕ :=
  if msw then
    let rgb : Color :=
      match (colors.map Color.rgb).dedup with
      | [v] => { wxBlack with rgb := v }
      | _ => wxBlack
    let alpha : Option ℕ :=
      match (colors.map Color.alpha).dedup with
      | [a] => some a
      | _ => none
    (rgb, alpha)
  else
    match colors.dedup with
    | [c] => (c, none)
    | _ => (wxBlack, none)

/-- Modelled from the spec: `no_rzeros` (defined in `rkviewer.utils`, a module
not present under `src/`).  §4.1: "Numeric-to-text formatting for `Common`
values strips trailing zeros beyond the configured precision" — format the
value rounded to `prec` decimal places, then strip trailing fractional
zeros. -/
def no_rzeros (v : ℚ) (prec : ℕ) : String :=
  let scaled : ℤ := round (v * (10 : ℚ) ^ prec)
  let p : ℕ := 10 ^ prec
  let n : ℕ := scaled.natAbs
  let signStr : String := if scaled < 0 then "-" else ""
  let fracDigits : List Char := Nat.toDigits 10 (n % p)
  let fracPadded : List Char :=
    List.replicate (prec - fracDigits.length) '0' ++ fracDigits
  let fracStripped : List Char :=
    (fracPadded.reverse.dropWhile (fun ch => ch = '0')).reverse
  signStr ++ toString (n / p) ++
    (if fracStripped.isEmpty then "" else "." ++ String.mk fracStripped)

/-- Embedding of `EditPanelForm._GetMultiFloatText` (forms.py lines 371-377).
`values` is the list of raw per-entity numbers; the Python `set` the callers
build from them is embedded as `List.dedup`.  Returns the formatted common
value if the set has exactly one element, otherwise the literal `"?"`. -/
def getMultiFloatText (values : List ℚ) (prec : ℕ) : String :=
  match values.dedup with
  | [v] => no_rzeros v prec
  | _ => "?"

/-- Embedding of `EditPanelForm._AlphaToText` (forms.py lines 379-390). -/
def alphaToText (alpha : Option ℕ) (prec : ℕ) : String :=
  match alpha with
  | none => "?"
  | some a => no_rzeros ((a : ℚ) / 255) prec

/-- Python `str.strip` whitespace test (ASCII subset). -/
def isPySpace (c : Char) : Bool := c = ' ' || c = '\t' || c = '\n' || c = '\r'

/-- Python `str.strip` on a character list. -/
def trimChars (s : List Char) : List Char :=
  ((s.dropWhile isPySpace).reverse.dropWhile isPySpace).reverse

/-- Python `str.split(",")` on a character list: split at every comma,
keeping empty pieces. -/
def splitOnComma : List Char → List (List Char)
  | [] => [[]]
  | ch :: rest =>
    if ch = ',' then [] :: splitOnComma rest
    else
      match splitOnComma rest with
      | [] => [[ch]]
      | g :: gs => (ch :: g) :: gs

/-- Embedding of `parse_precisions` (forms.py lines 41-60) over the text as a
character list.  The `assert len(nums) == 2` is embedded as `none`.  Note the
faithfully reproduced detail of the source: `y_prec` is computed from
`len(xstr)` (forms.py line 56), not from `len(ystr)`. -/
def parse_precisions (text : List Char) : Option (ℤ × ℤ) :=
  match splitOnComma text with
  | [xs, ys] =>
    let xstr := trimChars xs
    let ystr := trimChars ys
    let x_prec : ℤ :=
      match xstr.findIdx? (fun ch => ch = '.') with
      | some i => (xstr.length : ℤ) - i - 1
      | none => 0
    let y_prec : ℤ :=
      match ystr.findIdx? (fun ch => ch = '.') with
      | some i => (xstr.length : ℤ) - i - 1
      | none => 0
    some (x_prec, y_prec)
  | _ => none

/-- The decimal precision of one numeral as the claim states it: the number
of digits after the first decimal point, `0` when there is none.  (Second,
spec-side definition, for comparison with `parse_precisions`.) -/
def claimPrecision (s : List Char) : ℤ :=
  match s.findIdx? (fun ch => ch = '.') with
  | some i => (s.length : ℤ) - i - 1
  | none => 0

/-- The per-form state consulted by `EditPanelForm.Update` (forms.py lines
112-119): whether the selection is non-empty and the `_self_changes` flag. -/
structure FormState where
  selectedNonempty : Bool
  selfChanges : Bool
  deriving DecidableEq, Repr

/-- The two event kinds of the echo-suppression protocol: a form handler
initiating a model mutation (every mutating handler sets
`self._self_changes = True` before issuing controller calls), and a
model-driven refresh (`EditPanelForm.Update`). -/
inductive FormEvent where
  | selfEdit : FormEvent
  | refresh : FormEvent
  deriving DecidableEq, Repr

/-- One step of the protocol.  `selfEdit` sets the flag.  `refresh` embeds
`EditPanelForm.Update`: it repopulates the fields (`UpdateAllFields`) iff the
selection is non-empty and the flag is clear, and always leaves the flag
clear.  The returned `Bool` reports whether `UpdateAllFields` ran. -/
def stepForm (s : FormState) : FormEvent → FormState × Bool
  | .selfEdit => ({ s with selfChanges := true }, false)
  | .refresh =>
    (⟨s.selectedNonempty, false⟩, s.selectedNonempty && !s.selfChanges)

/-- Run a sequence of events, collecting per-event repopulation flags. -/
def runOutputs (s : FormState) : List FormEvent → List Bool
  | [] => []
  | e :: es =>
    let r := stepForm s e
    r.2 :: runOutputs r.1 es

/-- Modelled from the spec's words (claim C5), for comparison with the code:
round a value to `prec` decimal places. -/
def specRoundTo (v : ℚ) (prec : ℕ) : ℚ := (round (v * 10 ^ prec) : ℚ) / 10 ^ prec

/-- A concrete node fixture (the §8 scenario node A). -/
def nodeA : Node := ⟨0, ⟨0, 0⟩, ⟨10, 10⟩, wxBlack⟩

/-- A concrete node fixture (the §8 scenario node B). -/
def nodeB : Node := ⟨1, ⟨20, 20⟩, ⟨10, 10⟩, wxBlack⟩

/-- The §8 scenario selection. -/
def scenarioNodes : List Node := [nodeA, nodeB]

/-- The §8 scenario bounding rectangle of `scenarioNodes`. -/
def scenarioBrect : Rect := ⟨⟨0, 0⟩, ⟨30, 30⟩⟩

/-- The §8 scenario canvas size. -/
def scenarioRealsize : Vec2 := ⟨1000, 1000⟩

/-- A node whose current width is zero. -/
def nodeZeroWidth : Node := ⟨0, ⟨0, 0⟩, ⟨0, 10⟩, wxBlack⟩

/-- A node with a distinctive fill color, for the color-pick counterexample. -/
def nodeRed : Node := ⟨0, ⟨0, 0⟩, ⟨10, 10⟩, ⟨12345, 255⟩⟩

/-! ### Helper lemmas -/

attribute [ext] Vec2

@[simp] theorem Vec2.add_def (a b : Vec2) : a + b = ⟨a.x + b.x, a.y + b.y⟩ := rfl

@[simp] theorem Vec2.sub_def (a b : Vec2) : a - b = ⟨a.x - b.x, a.y - b.y⟩ := rfl

theorem Vec2.add_zero_vec (v : Vec2) : v + ⟨0, 0⟩ = v := by
  ext <;> simp

theorem listMin_mem : ∀ l : List ℚ, l ≠ [] → listMin l ∈ l := by
  intro l
  induction l with
  | nil => intro h; exact absurd rfl h
  | cons a rest ih =>
    intro _
    cases rest with
    | nil => simp [listMin]
    | cons b t =>
      rcases min_cases a (listMin (b :: t)) with ⟨heq, _⟩ | ⟨heq, _⟩
      · simp [listMin, heq]
      · have := ih (by simp)
        simp [listMin, heq]
        right
        simpa using this

theorem dedup_single_iff {α : Type} [DecidableEq α] (l : List α) (v : α) :
    l.dedup = [v] ↔ l ≠ [] ∧ ∀ x ∈ l, x = v := by
  constructor
  · intro h
    constructor
    · intro hnil
      rw [hnil] at h
      simp at h
    · intro x hx
      have : x ∈ l.dedup := (List.mem_dedup).2 hx
      rw [h] at this
      simpa using this
  · rintro ⟨hne, hall⟩
    have hmem : v ∈ l.dedup := by
      rcases List.exists_mem_of_ne_nil l hne with ⟨a, ha⟩
      have := hall a ha
      subst this
      exact (List.mem_dedup).2 ha
    have hnd : l.dedup.Nodup := l.nodup_dedup
    have hsub : ∀ x ∈ l.dedup, x = v := fun x hx => hall x ((List.mem_dedup).1 hx)
    cases hd : l.dedup with
    | nil => rw [hd] at hmem; simp at hmem
    | cons a t =>
      have ha : a = v := hsub a (by rw [hd]; simp)
      have ht : t = [] := by
        cases ht : t with
        | nil => rfl
        | cons b t' =>
          exfalso
          have hb : b = v := by
            apply hsub
            rw [hd, ht]
            simp
          have : a ∉ t := by
            rw [hd] at hnd
            exact (List.nodup_cons.1 hnd).1
          rw [ht] at this
          exact this (by rw [ha, ← hb]; simp)
      rw [ha, ht]

/-! ### C4: grid snapping in the arrow designer -/

theorem projected_landing_coord_eq (c p : ℚ) :
    projected_landing_coord p c =
      if pymod p c < c / 2 then c * ⌊p / c⌋ else c * ⌊p / c⌋ + c := by
  unfold projected_landing_coord
  have hl : p - (p - pymod p c) = pymod p c := by ring
  have hv : p - pymod p c = c * ⌊p / c⌋ := by unfold pymod; ring
  simp only [hl, hv]
  rfl

theorem projected_landing_coord_int_mul (c : ℚ) (hc : 0 < c) (k : ℤ) :
    projected_landing_coord (c * k) c = c * k := by
  rw [projected_landing_coord_eq]
  have h0 : pymod (c * (k : ℚ)) c = 0 := by
    unfold pymod
    rw [mul_div_cancel_left₀ _ (ne_of_gt hc), Int.floor_intCast]
    ring
  rw [h0, if_pos (half_pos hc), mul_div_cancel_left₀ _ (ne_of_gt hc),
    Int.floor_intCast]

theorem projected_landing_coord_cases (c : ℚ) (p : ℚ) :
    projected_landing_coord p c = c * ⌊p / c⌋ ∨
      projected_landing_coord p c = c * (⌊p / c⌋ + 1) := by
  rw [projected_landing_coord_eq]
  split
  · left; rfl
  · right; ring

/-- C4: on each axis independently, the landing coordinate of
`DesignerWindow.projected_landing` is `floor(p/c)*c` when `p mod c < c/2` and
`floor(p/c)*c + c` otherwise; snapping an already-snapped coordinate returns
the same coordinate; the value committed by `DesignerWindow.OnLeftUp` is the
integer grid-cell index, i.e. the snapped pixel position divided exactly by
the cell size; and with cell size 20 a release at raw pixel (51, 39) commits
cell (3, 2). -/
theorem grid_snap_spec (c : ℚ) (hc : 0 < c) (p : ℚ) :
    (projected_landing_coord p c =
      if pymod p c < c / 2 then c * ⌊p / c⌋ else c * ⌊p / c⌋ + c) ∧
    projected_landing_coord (projected_landing_coord p c) c =
      projected_landing_coord p c ∧
    (∀ q : ℚ × ℚ, committed_cell q c =
      ((projected_landing q c).1 / c, (projected_landing q c).2 / c)) ∧
    committed_cell (51, 39) 20 = (3, 2) := by
  have hfloor : ∀ r : ℚ, ∃ k : ℤ, projected_landing_coord r c = c * k := by
    intro r
    rcases projected_landing_coord_cases c r with h | h
    · exact ⟨⌊r / c⌋, by rw [h]⟩
    · exact ⟨⌊r / c⌋ + 1, by rw [h]; push_cast; ring⟩
  refine ⟨?_, ?_, ?_, ?_⟩
  · exact projected_landing_coord_eq c p
  · rcases hfloor p with ⟨k, hk⟩
    rw [hk]
    exact projected_landing_coord_int_mul c hc k
  · intro q
    unfold committed_cell
    rcases hfloor q.1 with ⟨k1, hk1⟩
    rcases hfloor q.2 with ⟨k2, hk2⟩
    unfold projected_landing
    rw [hk1, hk2, mul_div_cancel_left₀ _ (ne_of_gt hc),
      mul_div_cancel_left₀ _ (ne_of_gt hc), Int.floor_intCast, Int.floor_intCast]
  · unfold committed_cell projected_landing projected_landing_coord pymod
    norm_num

/-- Witness for `grid_snap_spec` at cell size 20 and release coordinate 51. -/
theorem grid_snap_spec_witness :
    (0 : ℚ) < 20 ∧ committed_cell (51, 39) 20 = (3, 2) :=
  ⟨by norm_num, (grid_snap_spec 20 (by norm_num) 51).2.2.2⟩

/-! ### C10: `parse_precisions` -/

/-- C10 (code bug): on the input `"1.5, 10.25"` the claim (and the
function's own docstring) requires the pair of decimal precisions of X and Y,
`(1, 2)`; the code instead returns `(1, 0)`, because `y_prec` is computed
from `len(xstr)` (forms.py line 56) rather than `len(ystr)`.
`claimPrecision` gives the intended per-numeral precision: for `"10.25"` it
is `2`, not `0`. -/
theorem parse_precisions_y_uses_xstr_len :
    parse_precisions "1.5, 10.25".toList = some (1, 0) ∧
    claimPrecision (trimChars " 10.25".toList) = 2 ∧
    (1, 0) ≠ ((1 : ℤ), (2 : ℤ)) := by
  refine ⟨by decide, by decide, by decide⟩

/-! ### C5: numeric aggregation (`_GetMultiFloatText`) -/

/-- C5 counterexample: the values 1.001 and 1.002 are equal after rounding to
precision 2 (and differ by less than 10^-2), yet `_GetMultiFloatText` renders
them as the mixed sentinel `"?"` rather than the common rounded value — the
code compares raw set elements and never rounds. -/
theorem multiFloatText_no_rounding_counterexample :
    specRoundTo (1001 / 1000) 2 = specRoundTo (1002 / 1000) 2 ∧
    |(1001 / 1000 : ℚ) - 1002 / 1000| < 1 / 10 ^ 2 ∧
    getMultiFloatText [1001 / 1000, 1002 / 1000] 2 = "?" ∧
    no_rzeros (specRoundTo (1001 / 1000) 2) 2 ≠ "?" := by
  refine ⟨?_, by norm_num [abs_lt], ?_, ?_⟩
  · unfold specRoundTo
    norm_num [round_eq]
  · unfold getMultiFloatText
    rw [List.dedup_cons_of_not_mem (by norm_num), List.dedup_cons_of_not_mem (by norm_num),
      List.dedup_nil]
  · have h1 : specRoundTo (1001 / 1000) 2 = 1 := by
      unfold specRoundTo
      norm_num [round_eq]
    have h2 : no_rzeros 1 2 = "1" := by
      simp only [no_rzeros]
      rw [show round ((1 : ℚ) * 10 ^ 2) = (100 : ℤ) from by norm_num [round_eq]]
      decide
    rw [h1, h2]
    decide

/-- C5 as amended: `_GetMultiFloatText` returns the formatted common value
exactly when the raw values form a singleton set (exact float equality, no
rounding), and returns `"?"` whenever the set contains two distinct values —
including values that differ by less than `10^-P`; in particular any two
values differing by more than `10^-P` yield `"?"`. -/
theorem multiFloatText_exact_equality (values : List ℚ) (prec : ℕ) (v : ℚ) :
    (values ≠ [] → (∀ x ∈ values, x = v) →
      getMultiFloatText values prec = no_rzeros v prec) ∧
    (∀ a ∈ values, ∀ b ∈ values, a ≠ b → getMultiFloatText values prec = "?") := by
  constructor
  · intro hne hall
    have hd : values.dedup = [v] := (dedup_single_iff values v).2 ⟨hne, hall⟩
    unfold getMultiFloatText
    rw [hd]
  · intro a ha b hb hab
    unfold getMultiFloatText
    cases hd : values.dedup with
    | nil => rfl
    | cons x t =>
      cases t with
      | nil =>
        exfalso
        have := ((dedup_single_iff values x).1 hd).2
        exact hab ((this a ha).trans (this b hb).symm)
      | cons y t' => rfl

/-- Witness for `multiFloatText_exact_equality`: a common value is formatted,
distinct values render as `"?"`. -/
theorem multiFloatText_exact_equality_witness :
    getMultiFloatText [(2 : ℚ), 2] 1 = no_rzeros 2 1 ∧
    getMultiFloatText [(1 : ℚ), 2] 1 = "?" :=
  ⟨(multiFloatText_exact_equality [(2 : ℚ), 2] 1 2).1 (by simp) (by simp),
   (multiFloatText_exact_equality [(1 : ℚ), 2] 1 2).2 1 (by simp) 2 (by simp)
     (by norm_num)⟩

/-! ### C9: color aggregation (`_GetMultiColor`) -/

/-- C9: on a platform requiring a separate alpha field (`msw = true`), the
RGB word and the alpha channel are aggregated independently: the aggregated
alpha is `some a` exactly when every color's alpha is `a` (rendered `"?"`
when `none`), the aggregated RGB is the shared value whenever all RGB values
agree, and RGB can aggregate as common while alpha is mixed. -/
theorem multiColor_independent_channels (colors : List Color)
    (hne : colors ≠ []) :
    (∀ a : ℕ, (getMultiColor colors true).2 = some a ↔ ∀ c ∈ colors, c.alpha = a) ∧
    (∀ v : ℕ, (∀ c ∈ colors, c.rgb = v) → (getMultiColor colors true).1.rgb = v) ∧
    (∀ prec : ℕ, alphaToText none prec = "?") ∧
    getMultiColor [⟨7, 10⟩, ⟨7, 20⟩] true = (⟨7, 255⟩, none) := by
  refine ⟨?_, ?_, fun _ => rfl, by decide⟩
  · intro a
    unfold getMultiColor
    simp only [if_pos]
    constructor
    · intro h
      cases hd : (colors.map Color.alpha).dedup with
      | nil => rw [hd] at h; simp at h
      | cons x t =>
        cases t with
        | nil =>
          rw [hd] at h
          simp only [Option.some.injEq] at h
          subst h
          have := ((dedup_single_iff _ x).1 hd).2
          intro c hc
          exact this c.alpha (List.mem_map_of_mem Color.alpha hc)
        | cons y t' => rw [hd] at h; simp at h
    · intro h
      have hd : (colors.map Color.alpha).dedup = [a] := by
        refine (dedup_single_iff _ a).2 ⟨?_, ?_⟩
        · simp [hne]
        · intro x hx
          rcases List.mem_map.1 hx with ⟨c, hc, rfl⟩
          exact h c hc
      rw [hd]
  · intro v h
    unfold getMultiColor
    simp only [if_pos]
    have hd : (colors.map Color.rgb).dedup = [v] := by
      refine (dedup_single_iff _ v).2 ⟨?_, ?_⟩
      · simp [hne]
      · intro x hx
        rcases List.mem_map.1 hx with ⟨c, hc, rfl⟩
        exact h c hc
    rw [hd]

/-- Witness for `multiColor_independent_channels`: two colors sharing RGB 7
with alphas 10 and 20 aggregate to common RGB and mixed alpha. -/
theorem multiColor_independent_channels_witness :
    (getMultiColor [⟨7, 10⟩, ⟨7, 20⟩] true).1.rgb = 7 ∧
    getMultiColor [⟨7, 10⟩, ⟨7, 20⟩] true = (⟨7, 255⟩, none) :=
  ⟨(multiColor_independent_channels [⟨7, 10⟩, ⟨7, 20⟩] (by decide)).2.1 7 (by decide),
   (multiColor_independent_channels [⟨7, 10⟩, ⟨7, 20⟩] (by decide)).2.2.2⟩

/-! ### C7: echo suppression via `_self_changes` -/

/-- C7: every mutating handler sets `_self_changes` when it issues mutations;
`Update` never repopulates while the flag is set, always clears it, and so
the refresh after next repopulates again (selection non-empty); consequently,
in every sequence of self-initiated edits and refreshes, a refresh
immediately following a self-initiated edit (an echo) never re-invokes
`UpdateAllFields`. -/
theorem selfChanges_echo_suppression :
    (∀ (s : FormState) (evts : List FormEvent) (i : ℕ),
      evts[i]? = some FormEvent.selfEdit → evts[i + 1]? = some FormEvent.refresh →
      (runOutputs s evts)[i + 1]? = some false) ∧
    (∀ s : FormState, (stepForm s FormEvent.refresh).1.selfChanges = false) ∧
    (∀ s : FormState, s.selectedNonempty = true →
      (stepForm (stepForm (stepForm s FormEvent.selfEdit).1 FormEvent.refresh).1
        FormEvent.refresh).2 = true) ∧
    (∀ nodes brect realsize xy eff ns,
      onPosText nodes brect realsize xy = (.done eff, ns) →
      eff.muts ≠ [] → eff.selfChanges = true) ∧
    (∀ nodes brect realsize minW minH wh eff,
      onSizeText nodes brect realsize minW minH wh = .done eff →
      eff.muts ≠ [] → eff.selfChanges = true) ∧
    (∀ nodes msw fill, (onFillColorChanged nodes msw fill).selfChanges = true) := by
  refine ⟨?_, fun s => rfl, fun s h => by simp [stepForm, h], ?_, ?_, fun _ _ _ => rfl⟩
  · intro s evts
    induction evts generalizing s with
    | nil => intro i h1 _; simp at h1
    | cons e es ih =>
      intro i h1 h2
      cases i with
      | zero =>
        simp only [List.getElem?_cons_zero, Option.some.injEq] at h1
        subst h1
        cases es with
        | nil => simp at h2
        | cons f es' =>
          simp only [List.getElem?_cons_succ, List.getElem?_cons_zero,
            Option.some.injEq] at h2
          subst h2
          simp [runOutputs, stepForm]
      | succ j =>
        simp only [List.getElem?_cons_succ] at h1 h2
        simp only [runOutputs, List.getElem?_cons_succ]
        exact ih (stepForm s e).1 j h1 h2
  · intro nodes brect realsize xy eff ns h hmut
    rcases xy with _ | ⟨px, py⟩
    · simp [onPosText] at h
    · rcases nodes with _ | ⟨n1, _ | ⟨n2, rest⟩⟩ <;>
        · simp only [onPosText] at h
          split at h
          · simp at h
          · split at h <;>
              · simp only [Prod.mk.injEq, HandlerResult.done.injEq] at h
                obtain ⟨rfl, -⟩ := h
                first
                  | rfl
                  | exact absurd rfl hmut
  · intro nodes brect realsize minW minH wh eff h hmut
    rcases wh with _ | ⟨w, hgt⟩
    · simp [onSizeText] at h
    · rcases nodes with _ | ⟨n1, _ | ⟨n2, rest⟩⟩
      · simp [onSizeText] at h
      · simp only [onSizeText] at h
        split at h
        · simp at h
        · split at h <;>
            · simp only [HandlerResult.done.injEq] at h
              obtain rfl := h
              first
                | rfl
                | exact absurd rfl hmut
      · simp only [onSizeText] at h
        split at h
        · simp at h
        · split at h
          · simp at h
          · split at h <;>
              · simp only [HandlerResult.done.injEq] at h
                obtain rfl := h
                first
                  | rfl
                  | exact absurd rfl hmut

/-- Witness for `selfChanges_echo_suppression`: the echo refresh right after
a self-initiated edit reports no repopulation. -/
theorem selfChanges_echo_suppression_witness :
    (runOutputs ⟨true, false⟩ [FormEvent.selfEdit, FormEvent.refresh])[1]? =
      some false :=
  selfChanges_echo_suppression.1 ⟨true, false⟩
    [FormEvent.selfEdit, FormEvent.refresh] 0 rfl rfl

/-! ### C2: multi-node position edit is a rigid translation -/

/-- C2: for a selection of two or more nodes and a well-formed non-negative
proposed position, `_OnPosText` computes the single offset
`clamp_rect_pos(Rect(pos, bounding_size), canvas_bounds).position -
old_bounding_position` and adds that same offset to every selected node's
position; no sizes change, and pairwise position differences are
preserved. -/
theorem posText_multi_rigid (nodes : List Node) (brect : Rect) (realsize : Vec2)
    (px py : ℚ) (hlen : 2 ≤ nodes.length) (hx : 0 ≤ px) (hy : 0 ≤ py) :
    ∃ eff, onPosText nodes brect realsize (some (px, py)) =
        (.done eff,
         nodes.map fun n =>
           { n with position := n.position + posOffset brect realsize ⟨px, py⟩ }) ∧
      (eff.muts = [] ∨
        eff.muts = [Mutation.startGroup] ++
          (nodes.map fun n =>
            Mutation.moveNode n.index (n.position + posOffset brect realsize ⟨px, py⟩)) ++
          [Mutation.endGroup]) ∧
      ((nodes.map fun n =>
          { n with position := n.position + posOffset brect realsize ⟨px, py⟩ }).map
            Node.size = nodes.map Node.size) ∧
      (∀ a ∈ nodes, ∀ b ∈ nodes,
        (a.position + posOffset brect realsize ⟨px, py⟩) -
            (b.position + posOffset brect realsize ⟨px, py⟩) =
          a.position - b.position) := by
  have hsizes : ∀ off : Vec2, (nodes.map fun n =>
      { n with position := n.position + off }).map Node.size = nodes.map Node.size := by
    intro off
    rw [List.map_map]
    rfl
  have hpairs : ∀ a ∈ nodes, ∀ b ∈ nodes,
      (a.position + posOffset brect realsize ⟨px, py⟩) -
          (b.position + posOffset brect realsize ⟨px, py⟩) =
        a.position - b.position := by
    intro a _ b _
    ext <;> simp
  rcases nodes with _ | ⟨n1, _ | ⟨n2, rest⟩⟩
  · simp at hlen
  · simp at hlen
  · simp only [onPosText]
    rw [if_neg (by push_neg; exact ⟨hx, hy⟩)]
    split
    · exact ⟨_, rfl, Or.inr rfl, hsizes _, hpairs⟩
    · next hguard =>
      push_neg at hguard
      obtain ⟨hb, hc⟩ := hguard
      have hoff : posOffset brect realsize ⟨px, py⟩ = ⟨0, 0⟩ := by
        unfold posOffset
        rw [← hc, ← hb]
        ext <;> simp
      refine ⟨⟨[], false⟩, ?_, Or.inl rfl, hsizes _, hpairs⟩
      rw [hoff]
      have : (fun n : Node => { n with position := n.position + (⟨0, 0⟩ : Vec2) }) = id := by
        funext n
        rw [id_eq, Vec2.add_zero_vec]
      rw [this, List.map_id]

/-- Witness for `posText_multi_rigid`: two nodes, proposed bounding position
(5, 5) inside a 1000×1000 canvas. -/
theorem posText_multi_rigid_witness :
    ∃ eff, onPosText scenarioNodes scenarioBrect scenarioRealsize (some (5, 5)) =
        (.done eff,
         scenarioNodes.map fun n =>
           { n with position := n.position +
               posOffset scenarioBrect scenarioRealsize ⟨5, 5⟩ }) ∧
      (eff.muts = [] ∨
        eff.muts = [Mutation.startGroup] ++
          (scenarioNodes.map fun n =>
            Mutation.moveNode n.index (n.position +
              posOffset scenarioBrect scenarioRealsize ⟨5, 5⟩)) ++
          [Mutation.endGroup]) ∧
      ((scenarioNodes.map fun n =>
          { n with position := n.position +
              posOffset scenarioBrect scenarioRealsize ⟨5, 5⟩ }).map Node.size =
        scenarioNodes.map Node.size) ∧
      (∀ a ∈ scenarioNodes, ∀ b ∈ scenarioNodes,
        (a.position + posOffset scenarioBrect scenarioRealsize ⟨5, 5⟩) -
            (b.position + posOffset scenarioBrect scenarioRealsize ⟨5, 5⟩) =
          a.position - b.position) :=
  posText_multi_rigid scenarioNodes scenarioBrect scenarioRealsize 5 5
    (by simp [scenarioNodes]) (by norm_num) (by norm_num)

/-! ### C1: proportional multi-node resize -/

theorem scale_about_origin_div (o pa pb r : ℚ)
    (hden : (o + (pb - o) * r) - o ≠ 0) :
    ((o + (pa - o) * r) - o) / ((o + (pb - o) * r) - o) = (pa - o) / (pb - o) := by
  have h1 : (o + (pa - o) * r) - o = (pa - o) * r := by ring
  have h2 : (o + (pb - o) * r) - o = (pb - o) * r := by ring
  rw [h1, h2]
  rw [h2] at hden
  exact mul_div_mul_right _ _ (mul_ne_zero_iff.1 hden).2

/-- C1: for two or more selected nodes whose proposed bounding size passes
validation, `_OnSizeText` issues, inside one `start_group`/`end_group`
transaction, `move_node(n, old_origin + (old_pos - old_origin) * ratio)` and
`set_node_size(n, old_size * ratio)` for every node, with
`ratio = clamped_size / old_bounding_size` element-wise (or issues nothing at
all when nothing would change, in which case the formulas are the identity);
consequently relative position ratios about the bounding origin are preserved
component-wise wherever the denominators are nonzero. -/
theorem sizeText_multi_proportional (nodes : List Node) (brect : Rect)
    (realsize : Vec2) (minW minH w h : ℚ)
    (hlen : 2 ≤ nodes.length)
    (hw : ∀ n ∈ nodes, 0 < n.size.x)
    (hh : ∀ n ∈ nodes, 0 < n.size.y)
    (hbx : brect.size.x ≠ 0) (hby : brect.size.y ≠ 0)
    (hvx : (sizeLimit nodes brect minW minH).x ≤ w)
    (hvy : (sizeLimit nodes brect minW minH).y ≤ h) :
    ∃ eff, onSizeText nodes brect realsize minW minH (some (w, h)) = .done eff ∧
      (eff.muts = multiSizeTxn nodes brect (sizeRatio brect realsize ⟨w, h⟩) ∨
        (eff.muts = [] ∧ ∀ n ∈ nodes,
          multiNewPos brect (sizeRatio brect realsize ⟨w, h⟩) n = n.position ∧
          multiNewSize (sizeRatio brect realsize ⟨w, h⟩) n = n.size)) ∧
      (∀ a ∈ nodes, ∀ b ∈ nodes,
        ((multiNewPos brect (sizeRatio brect realsize ⟨w, h⟩) b).x -
              brect.position.x ≠ 0 →
          ((multiNewPos brect (sizeRatio brect realsize ⟨w, h⟩) a).x -
              brect.position.x) /
            ((multiNewPos brect (sizeRatio brect realsize ⟨w, h⟩) b).x -
              brect.position.x) =
          (a.position.x - brect.position.x) / (b.position.x - brect.position.x)) ∧
        ((multiNewPos brect (sizeRatio brect realsize ⟨w, h⟩) b).y -
              brect.position.y ≠ 0 →
          ((multiNewPos brect (sizeRatio brect realsize ⟨w, h⟩) a).y -
              brect.position.y) /
            ((multiNewPos brect (sizeRatio brect realsize ⟨w, h⟩) b).y -
              brect.position.y) =
          (a.position.y - brect.position.y) / (b.position.y - brect.position.y))) := by
  have hratio : ∀ a ∈ nodes, ∀ b ∈ nodes,
      ((multiNewPos brect (sizeRatio brect realsize ⟨w, h⟩) b).x -
            brect.position.x ≠ 0 →
        ((multiNewPos brect (sizeRatio brect realsize ⟨w, h⟩) a).x -
            brect.position.x) /
          ((multiNewPos brect (sizeRatio brect realsize ⟨w, h⟩) b).x -
            brect.position.x) =
        (a.position.x - brect.position.x) / (b.position.x - brect.position.x)) ∧
      ((multiNewPos brect (sizeRatio brect realsize ⟨w, h⟩) b).y -
            brect.position.y ≠ 0 →
        ((multiNewPos brect (sizeRatio brect realsize ⟨w, h⟩) a).y -
            brect.position.y) /
          ((multiNewPos brect (sizeRatio brect realsize ⟨w, h⟩) b).y -
            brect.position.y) =
        (a.position.y - brect.position.y) / (b.position.y - brect.position.y)) := by
    intro a _ b _
    exact ⟨fun hden => scale_about_origin_div _ _ _ _ hden,
           fun hden => scale_about_origin_div _ _ _ _ hden⟩
  rcases nodes with _ | ⟨n1, _ | ⟨n2, rest⟩⟩
  · simp at hlen
  · simp at hlen
  · have hnx : listMin ((n1 :: n2 :: rest).map fun n => n.size.x) ≠ 0 := by
      rcases List.mem_map.1
          (listMin_mem ((n1 :: n2 :: rest).map fun n => n.size.x) (by simp)) with
        ⟨n, hn, heq⟩
      rw [← heq]
      exact ne_of_gt (hw n hn)
    have hny : listMin ((n1 :: n2 :: rest).map fun n => n.size.y) ≠ 0 := by
      rcases List.mem_map.1
          (listMin_mem ((n1 :: n2 :: rest).map fun n => n.size.y) (by simp)) with
        ⟨n, hn, heq⟩
      rw [← heq]
      exact ne_of_gt (hh n hn)
    simp only [onSizeText]
    rw [if_neg (by push_neg; exact ⟨hnx, hny⟩),
      if_neg (by push_neg; exact ⟨hvx, hvy⟩)]
    split
    · exact ⟨_, rfl, Or.inl rfl, hratio⟩
    · next hguard =>
      push_neg at hguard
      obtain ⟨hbsz, hwh⟩ := hguard
      refine ⟨⟨[], false⟩, rfl, Or.inr ⟨rfl, ?_⟩, hratio⟩
      intro n _
      have hr : sizeRatio brect realsize ⟨w, h⟩ = ⟨1, 1⟩ := by
        unfold sizeRatio
        rw [← hbsz]
        unfold Vec2.elem_div
        ext
        · exact div_self hbx
        · exact div_self hby
      rw [hr]
      constructor
      · unfold multiNewPos Vec2.elem_mul
        ext <;> simp
      · unfold multiNewSize Vec2.elem_mul
        ext <;> simp

/-- Witness for `sizeText_multi_proportional`: the §8 scenario — two 10×10
nodes with bounding rect 30×30, size text "40, 40", minimum node size 10. -/
theorem sizeText_multi_proportional_witness :
    ∃ eff, onSizeText scenarioNodes scenarioBrect scenarioRealsize 10 10
        (some (40, 40)) = .done eff ∧
      (eff.muts = multiSizeTxn scenarioNodes scenarioBrect
          (sizeRatio scenarioBrect scenarioRealsize ⟨40, 40⟩) ∨
        (eff.muts = [] ∧ ∀ n ∈ scenarioNodes,
          multiNewPos scenarioBrect
            (sizeRatio scenarioBrect scenarioRealsize ⟨40, 40⟩) n = n.position ∧
          multiNewSize (sizeRatio scenarioBrect scenarioRealsize ⟨40, 40⟩) n =
            n.size)) ∧
      (∀ a ∈ scenarioNodes, ∀ b ∈ scenarioNodes,
        ((multiNewPos scenarioBrect
              (sizeRatio scenarioBrect scenarioRealsize ⟨40, 40⟩) b).x -
            scenarioBrect.position.x ≠ 0 →
          ((multiNewPos scenarioBrect
              (sizeRatio scenarioBrect scenarioRealsize ⟨40, 40⟩) a).x -
            scenarioBrect.position.x) /
            ((multiNewPos scenarioBrect
              (sizeRatio scenarioBrect scenarioRealsize ⟨40, 40⟩) b).x -
            scenarioBrect.position.x) =
          (a.position.x - scenarioBrect.position.x) /
            (b.position.x - scenarioBrect.position.x)) ∧
        ((multiNewPos scenarioBrect
              (sizeRatio scenarioBrect scenarioRealsize ⟨40, 40⟩) b).y -
            scenarioBrect.position.y ≠ 0 →
          ((multiNewPos scenarioBrect
              (sizeRatio scenarioBrect scenarioRealsize ⟨40, 40⟩) a).y -
            scenarioBrect.position.y) /
            ((multiNewPos scenarioBrect
              (sizeRatio scenarioBrect scenarioRealsize ⟨40, 40⟩) b).y -
            scenarioBrect.position.y) =
          (a.position.y - scenarioBrect.position.y) /
            (b.position.y - scenarioBrect.position.y))) :=
  sizeText_multi_proportional scenarioNodes scenarioBrect scenarioRealsize
    10 10 40 40 (by simp [scenarioNodes])
    (by
      intro n hn
      simp only [scenarioNodes, List.mem_cons, List.not_mem_nil, or_false] at hn
      rcases hn with rfl | rfl <;> norm_num [nodeA, nodeB])
    (by
      intro n hn
      simp only [scenarioNodes, List.mem_cons, List.not_mem_nil, or_false] at hn
      rcases hn with rfl | rfl <;> norm_num [nodeA, nodeB])
    (by norm_num [scenarioBrect])
    (by norm_num [scenarioBrect])
    (by norm_num [sizeLimit, scenarioNodes, scenarioBrect, nodeA, nodeB, listMin,
      Vec2.elem_mul])
    (by norm_num [sizeLimit, scenarioNodes, scenarioBrect, nodeA, nodeB, listMin,
      Vec2.elem_mul])

/-! ### C3: below-minimum sizes are rejected with no mutation -/

/-- C3: when the size text parses but the proposed size is below the allowed
minimum — a component below the configured minimum for a single node, or a
component below `BoundingRect.size * min_ratio` for a multi-node selection —
`_OnSizeText` reports a validation error (`HandlerResult.invalid`, which by
construction carries no controller mutation, so every node's position and
size are untouched). -/
theorem sizeText_below_min_rejected
    (node : Node) (nodes : List Node) (brect brect' : Rect) (realsize : Vec2)
    (minW minH w h w' h' : ℚ)
    (hsingle : w < minW ∨ h < minH)
    (hlen : 2 ≤ nodes.length)
    (hnw : listMin (nodes.map fun n => n.size.x) ≠ 0)
    (hnh : listMin (nodes.map fun n => n.size.y) ≠ 0)
    (hmulti : w' < (sizeLimit nodes brect' minW minH).x ∨
      h' < (sizeLimit nodes brect' minW minH).y) :
    onSizeText [node] brect realsize minW minH (some (w, h)) = .invalid ∧
    onSizeText nodes brect' realsize minW minH (some (w', h')) = .invalid := by
  constructor
  · simp only [onSizeText]
    rw [if_pos hsingle]
  · rcases nodes with _ | ⟨n1, _ | ⟨n2, rest⟩⟩
    · simp at hlen
    · simp at hlen
    · simp only [onSizeText]
      rw [if_neg (by push_neg; exact ⟨hnw, hnh⟩), if_pos hmulti]

/-- Witness for `sizeText_below_min_rejected`: the §8 scenarios — a single
20×20 node with size text "5, 5" under minimum (10, 10), and the two-node
selection with bounding size 30×30 and size text "20, 20" under the
`min_ratio` limit (30, 30). -/
theorem sizeText_below_min_rejected_witness :
    onSizeText [⟨0, ⟨5, 5⟩, ⟨20, 20⟩, wxBlack⟩] ⟨⟨0, 0⟩, ⟨20, 20⟩⟩
        scenarioRealsize 10 10 (some (5, 5)) = .invalid ∧
    onSizeText scenarioNodes scenarioBrect scenarioRealsize 10 10
        (some (20, 20)) = .invalid :=
  sizeText_below_min_rejected ⟨0, ⟨5, 5⟩, ⟨20, 20⟩, wxBlack⟩ scenarioNodes
    ⟨⟨0, 0⟩, ⟨20, 20⟩⟩ scenarioBrect scenarioRealsize 10 10 5 5 20 20
    (by norm_num) (by simp [scenarioNodes])
    (by norm_num [scenarioNodes, nodeA, nodeB, listMin])
    (by norm_num [scenarioNodes, nodeA, nodeB, listMin])
    (by norm_num [sizeLimit, scenarioNodes, scenarioBrect, nodeA, nodeB, listMin,
      Vec2.elem_mul])

/-! ### C6: zero-size nodes in the multi-node resize path -/

/-- C6 (code bug): with a zero-width node among two or more selected nodes,
`_OnSizeText` evaluates `min_width / min(selected widths)` with a zero
denominator — in Python an unhandled `ZeroDivisionError` (embedded as
`HandlerResult.crash`), not an explicit rejection: there is no guard. -/
theorem sizeText_zero_width_crash :
    onSizeText [nodeZeroWidth, nodeB] scenarioBrect scenarioRealsize 10 10
      (some (100, 100)) = .crash := by
  have hc : listMin ([nodeZeroWidth, nodeB].map fun n => n.size.x) = 0 ∨
      listMin ([nodeZeroWidth, nodeB].map fun n => n.size.y) = 0 := by
    left
    norm_num [listMin, nodeZeroWidth, nodeB]
  simp only [onSizeText]
  rw [if_pos hc]

/-! ### C8: empty undo groups -/

/-- C8 counterexample: picking a fill color equal to the node's current fill
color — an edit that changes no value — still opens a
`start_group`/`end_group` bracket on the controller (and issues a redundant
mutation): `_OnFillColorChanged` never compares old and new values. -/
theorem fillColor_groups_without_change :
    nodeRed.fill_color = ⟨12345, 255⟩ ∧
    (onFillColorChanged [nodeRed] true ⟨12345, 255⟩).muts =
      [Mutation.startGroup, Mutation.setNodeFillRgb 0 12345, Mutation.endGroup] :=
  ⟨rfl, rfl⟩

/-- C8 as amended: the position-text handler (single and multi node) and the
multi-node size handler open no group — indeed issue no mutation at all —
when the proposed value equals the current value after clamping, and the
single-node size handler never opens a group (its lone `set_node_size` call
is ungrouped); but the color-pick, alpha and border-width handlers always
open a `start_group`/`end_group` bracket, regardless of whether any value
changes. -/
theorem noChange_noGroup_guards
    (node : Node) (nodes : List Node) (brect : Rect) (realsize : Vec2)
    (minW minH px py w h alpha width : ℚ) (msw : Bool) (fill : Color) :
    (¬(px < 0 ∨ py < 0) →
      node.position = clamp_rect_pos ⟨⟨px, py⟩, node.size⟩ ⟨⟨0, 0⟩, realsize⟩ →
      (⟨px, py⟩ : Vec2) = clamp_rect_pos ⟨⟨px, py⟩, node.size⟩ ⟨⟨0, 0⟩, realsize⟩ →
      onPosText [node] brect realsize (some (px, py)) =
        (.done ⟨[], false⟩, [node])) ∧
    (2 ≤ nodes.length → ¬(px < 0 ∨ py < 0) →
      brect.position = ⟨px, py⟩ →
      (⟨px, py⟩ : Vec2) = clamp_rect_pos ⟨⟨px, py⟩, brect.size⟩ ⟨⟨0, 0⟩, realsize⟩ →
      onPosText nodes brect realsize (some (px, py)) = (.done ⟨[], false⟩, nodes)) ∧
    (2 ≤ nodes.length →
      listMin (nodes.map fun n => n.size.x) ≠ 0 →
      listMin (nodes.map fun n => n.size.y) ≠ 0 →
      ¬(w < (sizeLimit nodes brect minW minH).x ∨
        h < (sizeLimit nodes brect minW minH).y) →
      brect.size = clamp_rect_size ⟨brect.position, ⟨w, h⟩⟩ realsize →
      (⟨w, h⟩ : Vec2) = clamp_rect_size ⟨brect.position, ⟨w, h⟩⟩ realsize →
      onSizeText nodes brect realsize minW minH (some (w, h)) = .done ⟨[], false⟩) ∧
    (∀ wh eff, onSizeText [node] brect realsize minW minH wh = .done eff →
      Mutation.startGroup ∉ eff.muts) ∧
    ((onFillColorChanged nodes msw fill).muts.head? = some Mutation.startGroup) ∧
    ((fillAlphaCallback nodes alpha).muts.head? = some Mutation.startGroup) ∧
    ((borderWidthCallback nodes width).muts.head? = some Mutation.startGroup) := by
  refine ⟨?_, ?_, ?_, ?_, rfl, rfl, rfl⟩
  · intro hneg h1 h2
    simp only [onPosText]
    rw [if_neg hneg, if_neg (by push_neg; exact ⟨h1, h2⟩)]
  · intro hlen hneg h1 h2
    rcases nodes with _ | ⟨n1, _ | ⟨n2, rest⟩⟩
    · simp at hlen
    · simp at hlen
    · simp only [onPosText]
      rw [if_neg hneg, if_neg (by push_neg; exact ⟨h1, h2⟩)]
  · intro hlen hnw hnh hlim h1 h2
    rcases nodes with _ | ⟨n1, _ | ⟨n2, rest⟩⟩
    · simp at hlen
    · simp at hlen
    · simp only [onSizeText]
      rw [if_neg (by push_neg; exact ⟨hnw, hnh⟩), if_neg hlim,
        if_neg (by push_neg; exact ⟨h1, h2⟩)]
  · intro wh eff heq
    rcases wh with _ | ⟨w', h'⟩
    · simp [onSizeText] at heq
    · simp only [onSizeText] at heq
      split at heq
      · simp at heq
      · split at heq <;>
          · simp only [HandlerResult.done.injEq] at heq
            obtain rfl := heq
            simp

/-- Witness for `noChange_noGroup_guards`: concrete no-change edits issue no
group, while color/alpha/width edits always bracket. -/
theorem noChange_noGroup_guards_witness :
    onPosText [⟨0, ⟨5, 5⟩, ⟨10, 10⟩, wxBlack⟩] ⟨⟨5, 5⟩, ⟨30, 30⟩⟩
        scenarioRealsize (some (5, 5)) =
      (.done ⟨[], false⟩, [⟨0, ⟨5, 5⟩, ⟨10, 10⟩, wxBlack⟩]) ∧
    onPosText scenarioNodes ⟨⟨5, 5⟩, ⟨30, 30⟩⟩ scenarioRealsize (some (5, 5)) =
      (.done ⟨[], false⟩, scenarioNodes) ∧
    onSizeText scenarioNodes ⟨⟨5, 5⟩, ⟨30, 30⟩⟩ scenarioRealsize 10 10
      (some (30, 30)) = .done ⟨[], false⟩ ∧
    Mutation.startGroup ∉ (Effects.mk [] false).muts ∧
    (onFillColorChanged scenarioNodes true wxBlack).muts.head? =
      some Mutation.startGroup ∧
    (fillAlphaCallback scenarioNodes (1 / 2)).muts.head? =
      some Mutation.startGroup ∧
    (borderWidthCallback scenarioNodes 3).muts.head? =
      some Mutation.startGroup := by
  have main := noChange_noGroup_guards ⟨0, ⟨5, 5⟩, ⟨10, 10⟩, wxBlack⟩
    scenarioNodes ⟨⟨5, 5⟩, ⟨30, 30⟩⟩ scenarioRealsize 10 10 5 5 30 30 (1 / 2) 3
    true wxBlack
  refine ⟨main.1 (by norm_num) ?_ ?_,
    main.2.1 (by simp [scenarioNodes]) (by norm_num) rfl ?_,
    main.2.2.1 (by simp [scenarioNodes])
      (by norm_num [scenarioNodes, nodeA, nodeB, listMin])
      (by norm_num [scenarioNodes, nodeA, nodeB, listMin])
      (by norm_num [sizeLimit, scenarioNodes, nodeA, nodeB, listMin,
        Vec2.elem_mul]) ?_ ?_,
    main.2.2.2.1 (some (10, 10)) ⟨[], false⟩ ?_,
    main.2.2.2.2.1, main.2.2.2.2.2.1, main.2.2.2.2.2.2⟩
  · norm_num [clamp_rect_pos, scenarioRealsize]
  · norm_num [clamp_rect_pos, scenarioRealsize]
  · norm_num [clamp_rect_pos, scenarioRealsize]
  · norm_num [clamp_rect_size, scenarioRealsize]
  · norm_num [clamp_rect_size, scenarioRealsize]
  · simp only [onSizeText]
    rw [if_neg (by norm_num), if_neg]
    push_neg
    constructor <;> · norm_num [clamp_rect_size, scenarioRealsize]

end RKViewer
